import Mathlib

/-!
# lmika/gopkgs, package `render`: template store and invocations

A shallow embedding of `http/render/template.go`.  Pointers are inlined as
values, Go maps are association lists read front to back (the most recent
binding of a key is the one found), and operations that mutate the receiver
return the new receiver.  The template source is an `fs.FS` that lives outside
the store: the store holds a handle, and every operation that reads the source
takes the world it runs in.  The template language itself (parsing the text of
one template, expanding a compiled template) is the standard library's and is
taken as a parameter, `Engine`.

The methods of `Inv` other than its construction in `NewInv` are not part of
`template.go`; they are modelled from the specification and marked as such.
-/

namespace render

/-! ## Paths and the template source -/

/-- The path separator test of `os.IsPathSeparator` on Unix. -/
def IsPathSeparator (c : Char) : Bool := c == '/'

/-- The loop of `filepath.Ext`, run over the reversed path: `acc` holds the
characters to the right of the current index. -/
def filepath.extLoop : List Char → List Char → List Char
  | [], _ => []
  | c :: rest, acc =>
    if IsPathSeparator c then []
    else if c == '.' then c :: acc
    else filepath.extLoop rest (c :: acc)

/-- The standard library's `filepath.Ext`: the suffix beginning at the final
dot in the final element of `path`, empty if there is no dot. -/
def filepath.Ext (path : String) : String :=
  ⟨filepath.extLoop path.data.reverse []⟩

/-- Modelled from the spec: `slices.Contains` of `github.com/lmika/gopkgs/fp/slices`
is not among the sources; the spec says entries are recognised by membership in
a small fixed set of suffix markers, so this is list membership. -/
def slices.Contains (xs : List String) (x : String) : Bool :=
  xs.any (fun y => y == x)

/-- The recognised template suffixes. -/
def templateSuffix : List String := [".html", ".gohtml"]

/-- An open file of the template source: what `io.ReadAll` yields on it. -/
structure File where
  ReadAll : Except String String

/-- The state of an `fs.FS` at one moment, as far as the store uses it:
`walk` is the sequence of paths `fs.WalkDir(fsys, ".", fn)` hands to `fn`, in
order, and `Open` is the result of opening a path. -/
structure FS where
  walk : List String
  Open : String → Except String File

/-- An `fs.FS` value held by a store: a handle on a source that lives outside it. -/
abbrev FSHandle := Nat

/-- The sources as they are at one moment. -/
abbrev World := FSHandle → FS

/-- The standard library's `fs.WalkDir` over the paths of a source: `fn` is
called on each path in turn, and a non-nil error from `fn` stops the walk and is
returned.  The directory entry and the error that `fs.WalkDir` also hands to `fn`
are left out: the callback of the store reads neither. -/
def fs.WalkDir {σ : Type} (fn : σ → String → σ × Option String) :
    σ → List String → σ × Option String
  | st, [] => (st, none)
  | st, p :: ps =>
    match fn st p with
    | (st1, none) => fs.WalkDir fn st1 ps
    | (st1, some e) => (st1, some e)

/-! ## Templates -/

/-- A `template.FuncMap`: function names with an identifier of the function. -/
abbrev FuncMap := List (String × Nat)

/-- A value of a rendering context (`interface{}`). -/
inductive Value where
  | str (s : String)
  | int (i : Int)
  | bool (b : Bool)
  deriving DecidableEq, Repr

/-- A rendering context, `map[string]interface{}`. -/
abbrev Ctx := List (String × Value)

/-- The external template engine: the type of parse trees, the parser (function
map in force, template name, text) and the expansion of a parse tree against a
context. -/
structure Engine where
  Tree : Type
  Parse : FuncMap → String → String → Except String Tree
  Execute : Tree → Ctx → Except String String

/-- One named template of a name space. -/
structure Entry (τ : Type) where
  name : String
  Tree : Option τ

/-- A `*template.Template` of `html/template`: a named template together with
the name space it belongs to (`set`), the functions registered on it, and
whether the name space has been executed already. -/
structure Template (τ : Type) where
  name : String
  Tree : Option τ
  funcs : FuncMap
  set : List (String × Entry τ)
  escaped : Bool

/-- The constructor `template.New`: a fresh name space that binds `name` to the
new, still empty, template. -/
def template.New {τ : Type} (name : String) : Template τ :=
  { name := name, Tree := none, funcs := [], set := [(name, ⟨name, none⟩)], escaped := false }

/-- The method `Funcs`: adds the functions of `m` to the template's function map. -/
def Template.Funcs {τ : Type} (t : Template τ) (m : FuncMap) : Template τ :=
  { t with funcs := m ++ t.funcs }

/-- The method `Lookup`: the template bound to `name` in the name space of `t`,
or nil. -/
def Template.Lookup {τ : Type} (t : Template τ) (name : String) :
    Option (Template τ) :=
  match t.set.find? (fun p => p.1 == name) with
  | none => none
  | some p => some { t with name := p.2.name, Tree := p.2.Tree }

/-- The method `Parse` on a fresh template: the parse tree of `text` becomes the
tree of `t`.  Templates that `text` defines on the side stay in the name space
of `t`, which the store never reads. -/
def Template.Parse (E : Engine) (t : Template E.Tree) (text : String) :
    Except String (Template E.Tree) :=
  match E.Parse t.funcs t.name text with
  | .error e => .error e
  | .ok tree =>
    .ok { t with Tree := some tree, set := (t.name, ⟨t.name, some tree⟩) :: t.set }

/-- The method `AddParseTree`: binds `name` to `tree` in the name space of `t`;
it is refused once the name space has been executed. -/
def Template.AddParseTree {τ : Type} (t : Template τ) (name : String)
    (tree : Option τ) : Except String (Template τ) :=
  if t.escaped then
    .error ("html/template: cannot Parse after Execute")
  else
    .ok { t with set := (name, ⟨name, tree⟩) :: t.set }

/-! ## The store -/

/-- A `*sync.RWMutex`: the address of a mutex.  What the store does with the
mutex is the subject of the section on synchronisation below. -/
abbrev MutexRef := Nat

/-- The struct `Config`. -/
structure Config (E : Engine) where
  templateFS : FSHandle
  cacheMutex : MutexRef
  templateSet : Option (Template E.Tree)
  funcMaps : Option FuncMap
  frameTemplates : List String

/-- The method `parseTemplate`. -/
def Config.parseTemplate (E : Engine) (w : World) (tc : Config E) (name : String) :
    Except String (Template E.Tree) :=
  match (w tc.templateFS).Open name with
  | .error err => .error err
  | .ok f =>
    match f.ReadAll with
    | .error err => .error err
    | .ok tmplBytes =>
      let tmpl : Template E.Tree := template.New name
      let tmpl := match tc.funcMaps with
        | some m => tmpl.Funcs m
        | none => tmpl
      match tmpl.Parse E tmplBytes with
      | .error err => .error err
      | .ok tmpl => .ok tmpl

/-- What a build has produced so far: the set under construction and the lines
written with `log.Printf`. -/
structure BuildState (τ : Type) where
  mainTmpl : Template τ
  log : List String

/-- The function literal that `buildTemplates` passes to `fs.WalkDir`. -/
def Config.walkFn (E : Engine) (w : World) (tc : Config E) (st : BuildState E.Tree)
    (path : String) : BuildState E.Tree × Option String :=
  if !slices.Contains templateSuffix (filepath.Ext path) then
    (st, none)
  else
    match tc.parseTemplate E w path with
    | .error err => ({ st with log := st.log ++ ["template " ++ path ++ ": " ++ err] }, none)
    | .ok tmpl =>
      match st.mainTmpl.AddParseTree path tmpl.Tree with
      | .error err => ({ st with log := st.log ++ ["template " ++ path ++ ": " ++ err] }, none)
      | .ok m => ({ st with mainTmpl := m }, none)

/-- The method `buildTemplates`, together with what it logs. -/
def Config.buildTemplatesLogged (E : Engine) (w : World) (tc : Config E) :
    BuildState E.Tree :=
  let mainTmpl : Template E.Tree := template.New "/"
  let mainTmpl := match tc.funcMaps with
    | some m => mainTmpl.Funcs m
    | none => mainTmpl
  (fs.WalkDir (tc.walkFn E w) ⟨mainTmpl, []⟩ (w tc.templateFS).walk).1

/-- The method `buildTemplates`. -/
def Config.buildTemplates (E : Engine) (w : World) (tc : Config E) : Template E.Tree :=
  (tc.buildTemplatesLogged E w).mainTmpl

/-- Modelled from the spec: the type `ConfigOption` is not among the sources; the
spec calls it a construction-time option, and `New` applies it to the store
under construction. -/
abbrev ConfigOption (E : Engine) := Config E → Config E

/-- Modelled from the spec: the option `WithFrame` is not among the sources; the
spec says it registers a global frame by name, in the order registered. -/
def WithFrame (E : Engine) (name : String) : ConfigOption E :=
  fun cfg => { cfg with frameTemplates := cfg.frameTemplates ++ [name] }

/-- The constructor `New`; `mu` is the address that `new(sync.RWMutex)` returns. -/
def New (E : Engine) (w : World) (mu : MutexRef) (tmplFS : FSHandle)
    (opts : List (ConfigOption E)) : Config E :=
  let cfg : Config E :=
    { templateFS := tmplFS, cacheMutex := mu, templateSet := none, funcMaps := none,
      frameTemplates := [] }
  let cfg := opts.foldl (fun cfg opt => opt cfg) cfg
  { cfg with templateSet := some (cfg.buildTemplates E w) }

/-- The method `rebuildTemplates`, as far as the fields of the store go. -/
def Config.rebuildTemplates (E : Engine) (w : World) (tc : Config E) : Config E :=
  let newTemplates := tc.buildTemplates E w
  { tc with templateSet := some newTemplates }

/-- What a call of the method `template` does: it returns a template (nil when
`Lookup` finds none) and an error, or it panics on a nil receiver of `Lookup`. -/
inductive LookupResult (τ : Type) where
  | returned (tmpl : Option (Template τ)) (err : Option String)
  | panicked

/-- The method `template`. -/
def Config.template {E : Engine} (tc : Config E) (name : String) : LookupResult E.Tree :=
  match tc.templateSet with
  | none => .panicked
  | some set => .returned (set.Lookup name) none

/-! ## Invocations -/

/-- Modelled from the spec: the frame reference of an invocation is not among the
sources; the spec gives it a template name and an argument mapping. -/
structure Frame where
  name : String
  args : Ctx

/-- Modelled from the spec: the struct `Inv` is not among the sources, only the
literal in `NewInv` that fills its fields `config` and `values`; the spec adds the
ordered frame list and the frame arguments shared by all frames. -/
structure Inv (E : Engine) where
  config : Config E
  values : Ctx
  frames : List Frame
  frameArgs : Ctx

/-- The method `NewInv`: the fields the literal does not name are zero. -/
def Config.NewInv {E : Engine} (tc : Config E) : Inv E :=
  { config := tc, values := [], frames := [], frameArgs := [] }

/-- The key under which a request context holds its invocation. -/
inductive ContextKey where
  | renderContextKey
  | other (name : String)
  deriving DecidableEq

/-- A value of a request context. -/
inductive ContextValue (E : Engine) where
  | inv (rc : Inv E)
  | other (v : String)

/-- A `context.Context`: the values attached so far, the most recent first. -/
abbrev Context (E : Engine) := List (ContextKey × ContextValue E)

/-- The function `context.WithValue`. -/
def context.WithValue {E : Engine} (ctx : Context E) (key : ContextKey)
    (val : ContextValue E) : Context E :=
  (key, val) :: ctx

/-- The method `Value` of a context. -/
def Context.Value {E : Engine} (ctx : Context E) (key : ContextKey) :
    Option (ContextValue E) :=
  (ctx.find? (fun p => p.1 == key)).map (fun p => p.2)

/-- An `*http.Request`, as far as the middleware touches it. -/
structure Request (E : Engine) where
  method : String
  url : String
  ctx : Context E

/-- The method `WithContext` of a request. -/
def Request.WithContext {E : Engine} (r : Request E) (ctx : Context E) : Request E :=
  { r with ctx := ctx }

/-- What a response sink has been sent. -/
inductive SinkEvent where
  | status (code : Nat)
  | header (key : String) (value : String)
  | body (bytes : String)
  deriving DecidableEq, Repr

/-- An `http.ResponseWriter`: the events sent to it so far, in order. -/
abbrev ResponseWriter := List SinkEvent

/-- An `http.Handler`. -/
abbrev Handler (E : Engine) := ResponseWriter → Request E → ResponseWriter

/-- The method `Use`. -/
def Config.Use {E : Engine} (tc : Config E) (next : Handler E) : Handler E :=
  fun w r =>
    let rc := tc.NewInv
    next w (r.WithContext (context.WithValue r.ctx ContextKey.renderContextKey (.inv rc)))

/-- Modelled from the spec: the failure of a render is not among the sources; the
spec names a template that is not found and a failed expansion. -/
inductive RenderError where
  | templateNotFound (name : String)
  | expansionFailed (msg : String)
  deriving DecidableEq, Repr

/-- Modelled from the spec: the method `Set` is not among the sources; the spec
says it stores a value for the main template and overwrites an existing one. -/
def Inv.Set {E : Engine} (inv : Inv E) (key : String) (value : Value) : Inv E :=
  { inv with values := (key, value) :: inv.values }

/-- Modelled from the spec: the method `UseFrame` is not among the sources; the
spec says it appends a frame reference with an empty argument mapping to the
frame list of the invocation. -/
def Inv.UseFrame {E : Engine} (inv : Inv E) (name : String) : Inv E :=
  { inv with frames := inv.frames ++ [{ name := name, args := [] }] }

/-- Modelled from the spec: the method `SetFrameArg` is not among the sources;
the spec says it sets an argument in the mapping shared by every frame. -/
def Inv.SetFrameArg {E : Engine} (inv : Inv E) (key : String) (value : Value) : Inv E :=
  { inv with frameArgs := (key, value) :: inv.frameArgs }

/-- Modelled from the spec: `merge` of the frame composition algorithm is not
among the sources; the mappings are listed in the order the spec gives them and
a later mapping takes precedence over an earlier one. -/
def merge (ms : List Ctx) : Ctx :=
  ms.foldl (fun acc m => m ++ acc) []

/-- Modelled from the spec: the expansion step of `Render` is not among the
sources; the spec says a name without a compiled entry is a template-not-found
failure and a failure of the engine is a render failure.  The lookup is the
store's method `template`. -/
def Config.expand {E : Engine} (tc : Config E) (name : String) (ctx : Ctx) :
    Except RenderError String :=
  match tc.template name with
  | .returned (some tmpl) none =>
    match tmpl.Tree with
    | none => .error (.expansionFailed ("template: " ++ name ++ " is an incomplete or empty template"))
    | some tree =>
      match E.Execute tree ctx with
      | .ok out => .ok out
      | .error msg => .error (.expansionFailed msg)
  | _ => .error (.templateNotFound name)

/-- Modelled from the spec: the context of one frame of `Render` is not among the
sources; the spec gives it as the frame's own arguments, the shared frame
arguments, and a `Content` slot bound to the previous output. -/
def Inv.frameCtx {E : Engine} (inv : Inv E) (frame : Frame) (output : String) : Ctx :=
  merge [frame.args, inv.frameArgs, [("Content", Value.str output)]]

/-- Modelled from the spec: the loop of `Render` over the frames is not among the
sources; each frame is expanded around the previous output. -/
def Inv.composeFrames {E : Engine} (inv : Inv E) :
    String → List Frame → Except RenderError String
  | output, [] => .ok output
  | output, frame :: rest =>
    match inv.config.expand frame.name (inv.frameCtx frame output) with
    | .error err => .error err
    | .ok output => inv.composeFrames output rest

/-- Modelled from the spec: the method `Render` is not among the sources; the
spec says it expands the named template against the value mapping and then each
frame in order, the frames of the invocation first and the global frames of the
store after them. -/
def Inv.Render {E : Engine} (inv : Inv E) (templateName : String) :
    Except RenderError String :=
  match inv.config.expand templateName inv.values with
  | .error err => .error err
  | .ok output =>
    inv.composeFrames output
      (inv.frames ++ inv.config.frameTemplates.map (fun name => { name := name, args := [] }))

/-- Modelled from the spec: the text of a render failure, for the response that
surfaces it. -/
def RenderError.Error : RenderError → String
  | .templateNotFound name => "template not found: " ++ name
  | .expansionFailed msg => msg

/-- Modelled from the spec: the method `HTML` is not among the sources; the spec
says it runs `Render` and on success writes the status code, sets the content
type to HTML with the UTF-8 charset and writes the output as the body, and on
failure surfaces the error, as a server error response, with no partial output. -/
def Inv.HTML {E : Engine} (inv : Inv E) (_r : Request E) (w : ResponseWriter)
    (status : Nat) (templateName : String) : ResponseWriter :=
  match inv.Render templateName with
  | .ok output =>
    w ++ [.status status, .header "Content-Type" "text/html; charset=utf-8", .body output]
  | .error err =>
    w ++ [.status 500, .body err.Error]

/-- One call a handler makes on its invocation before rendering. -/
inductive InvCall where
  | Set (key : String) (value : Value)
  | UseFrame (name : String)
  | SetFrameArg (key : String) (value : Value)

/-- The invocation after one call. -/
def Inv.call {E : Engine} (inv : Inv E) : InvCall → Inv E
  | .Set key value => inv.Set key value
  | .UseFrame name => inv.UseFrame name
  | .SetFrameArg key value => inv.SetFrameArg key value

/-- The invocation after a sequence of calls, made in order. -/
def Inv.calls {E : Engine} (inv : Inv E) (cs : List InvCall) : Inv E :=
  cs.foldl Inv.call inv

/-! ## Synchronisation -/

/-- The state of a `sync.RWMutex`: whether the exclusive lock is held and how
many shared locks are. -/
structure RWMutex where
  writer : Bool
  readers : Nat
  deriving DecidableEq, Repr

/-- The kind of an access to the field `templateSet`. -/
inductive Access where
  | read
  | write
  deriving DecidableEq, Repr

/-- The mutex a store points to, and the accesses made to `templateSet` so far,
each with the state of the mutex at the time it was made. -/
structure Sync where
  mutex : RWMutex
  accesses : List (Access × RWMutex)
  deriving DecidableEq, Repr

/-- How a run of a method ends, as far as the mutex goes: it returns, it waits
for a lock that no other goroutine is there to release, or it stops on a fatal
error of the runtime. -/
inductive SyncResult where
  | done (s : Sync)
  | blocked
  | fatal (msg : String)
  deriving DecidableEq, Repr

/-- The method `Lock` of the mutex: the exclusive lock is acquired when neither
the exclusive lock nor a shared lock is held, and the caller waits otherwise. -/
def Sync.Lock (s : Sync) : SyncResult :=
  if s.mutex.writer = false ∧ s.mutex.readers = 0 then
    .done { s with mutex := { s.mutex with writer := true } }
  else
    .blocked

/-- The method `Unlock` of the mutex: it releases the exclusive lock, and it is a
fatal error when the exclusive lock is not held. -/
def Sync.Unlock (s : Sync) : SyncResult :=
  if s.mutex.writer = true then
    .done { s with mutex := { s.mutex with writer := false } }
  else
    .fatal "sync: Unlock of unlocked RWMutex"

/-- An access to `templateSet`. -/
def Sync.access (s : Sync) (a : Access) : Sync :=
  { s with accesses := s.accesses ++ [(a, s.mutex)] }

/-- The method `rebuildTemplates`, as far as the mutex and `templateSet` go: the
set is built first, the lock is taken, the field is assigned, and the deferred
unlock runs on return. -/
def Config.rebuildTemplatesSync (s : Sync) : SyncResult :=
  match s.Lock with
  | .done s => (s.access Access.write).Unlock
  | .blocked => .blocked
  | .fatal msg => .fatal msg

/-- The method `template`, as far as the mutex and `templateSet` go: the field is
read, and no method of the mutex is called. -/
def Config.templateSync (s : Sync) : Sync :=
  s.access Access.read

/-! ## A small engine to run the definitions on -/

namespace sample

/-- A node of a parsed sample template: literal text or the field of the context
to print. -/
inductive Node where
  | text (s : String)
  | field (name : String)
  deriving DecidableEq, Repr

/-- The text collected so far, as a node, in front of `nodes`. -/
def flush (acc : List Char) (nodes : List Node) : List Node :=
  if acc.isEmpty then nodes else Node.text ⟨acc.reverse⟩ :: nodes

/-- The action between two pairs of braces: a dot and a field name. -/
def action (body : List Char) : Except String Node :=
  match body with
  | '.' :: c :: name => .ok (Node.field ⟨c :: name⟩)
  | _ => .error "unexpected action"

/-- Where the scanner is: in text, after one opening brace, in an action, or
after one closing brace inside an action. -/
inductive Mode where
  | text
  | open1
  | action
  | close1

/-- The scanner: `acc` collects, in reverse, the text or the action being read. -/
def scan : Mode → List Char → List Char → Except String (List Node)
  | .text, acc, [] => .ok (flush acc [])
  | .open1, acc, [] => .ok (flush ('{' :: acc) [])
  | .action, _, [] => .error "unclosed action"
  | .close1, _, [] => .error "unclosed action"
  | .text, acc, c :: rest =>
    if c == '{' then scan .open1 acc rest else scan .text (c :: acc) rest
  | .open1, acc, c :: rest =>
    if c == '{' then
      match scan .action [] rest with
      | .ok nodes => .ok (flush acc nodes)
      | .error e => .error e
    else scan .text (c :: '{' :: acc) rest
  | .action, acc, c :: rest =>
    if c == '}' then scan .close1 acc rest else scan .action (c :: acc) rest
  | .close1, acc, c :: rest =>
    if c == '}' then
      match action acc.reverse, scan .text [] rest with
      | .ok node, .ok nodes => .ok (node :: nodes)
      | .error e, _ => .error e
      | _, .error e => .error e
    else scan .action (c :: '}' :: acc) rest

/-- The text a value prints as. -/
def print : Value → String
  | .str s => s
  | .int i => toString i
  | .bool b => if b then "true" else "false"

/-- The expansion of parsed nodes against a context. -/
def execute : List Node → Ctx → Except String String
  | [], _ => .ok ""
  | .text s :: rest, ctx =>
    match execute rest ctx with
    | .ok out => .ok (s ++ out)
    | .error e => .error e
  | .field name :: rest, ctx =>
    match ctx.lookup name, execute rest ctx with
    | some v, .ok out => .ok (print v ++ out)
    | none, _ => .error ("no value for " ++ name)
    | _, .error e => .error e

/-- The sample engine: text with `{{.name}}` actions. -/
def engine : Engine :=
  { Tree := List Node
    Parse := fun _ _ text => scan Mode.text [] text.data
    Execute := execute }

end sample

/-! ## Auxiliary definitions for the statements -/

/-- The binding `buildTemplates` adds for `path`, if any: none for a path
without a recognised suffix and none for a file that fails to read or parse. -/
def Config.entryOf (E : Engine) (w : World) (tc : Config E) (path : String) :
    Option (String × Entry E.Tree) :=
  if slices.Contains templateSuffix (filepath.Ext path) then
    match tc.parseTemplate E w path with
    | .ok tmpl => some (path, ⟨path, tmpl.Tree⟩)
    | .error _ => none
  else none

/-- The source `fsys` with the file `path` removed. -/
def FS.remove (fsys : FS) (path : String) : FS :=
  { walk := fsys.walk.filter (fun p => p != path)
    Open := fun p => if p == path then .error "file does not exist" else fsys.Open p }

/-- The world in which the source behind handle `h` is `fsys`. -/
def World.replace (w : World) (h : FSHandle) (fsys : FS) : World :=
  fun k => if k = h then fsys else w k

/-- The initial set of a build: the root template, with the functions of the store. -/
def Config.rootTmpl (E : Engine) (tc : Config E) : Template E.Tree :=
  match tc.funcMaps with
  | some m => (template.New "/").Funcs m
  | none => template.New "/"

/-- Whether `buildTemplates` takes `path` for a template file. -/
def recognised (path : String) : Bool :=
  slices.Contains templateSuffix (filepath.Ext path)

/-- The names passed to `UseFrame` by a sequence of calls, in call order. -/
def InvCall.frameNames : List InvCall → List String
  | [] => []
  | .UseFrame name :: cs => name :: InvCall.frameNames cs
  | .Set _ _ :: cs => InvCall.frameNames cs
  | .SetFrameArg _ _ :: cs => InvCall.frameNames cs

/-- The value mapping a sequence of calls of `Set` leaves: the latest call first. -/
def InvCall.valueMap : List InvCall → Ctx
  | [] => []
  | .Set key value :: cs => InvCall.valueMap cs ++ [(key, value)]
  | .UseFrame _ :: cs => InvCall.valueMap cs
  | .SetFrameArg _ _ :: cs => InvCall.valueMap cs

/-- The shared frame arguments a sequence of calls of `SetFrameArg` leaves: the
latest call first. -/
def InvCall.frameArgMap : List InvCall → Ctx
  | [] => []
  | .SetFrameArg key value :: cs => InvCall.frameArgMap cs ++ [(key, value)]
  | .UseFrame _ :: cs => InvCall.frameArgMap cs
  | .Set _ _ :: cs => InvCall.frameArgMap cs

/-- One step of the composition that the specification describes: the frame
`frame` expanded by `expand` with `Content` bound to the previous output, in
front of the shared frame arguments; a failure so far stays a failure. -/
def frameStep (expand : String → Ctx → Except RenderError String) (shared : Ctx)
    (acc : Except RenderError String) (frame : String) : Except RenderError String :=
  match acc with
  | .ok output => expand frame (("Content", Value.str output) :: shared)
  | .error err => .error err

/-! ## Sample sources -/

namespace sample

/-- A source with the templates of the tests of `UseFrame`, a file that is not a
template and a template that does not parse. -/
def files : FS :=
  { walk := [".", "bad.html", "frame.html", "global.html", "index.html", "notes.txt"]
    Open := fun p =>
      if p == "." then .ok ⟨.error "is a directory"⟩
      else if p == "bad.html" then .ok ⟨.ok "Bad: \x7b\x7b.Content"⟩
      else if p == "frame.html" then .ok ⟨.ok "Frame: [{{.Content}}]"⟩
      else if p == "global.html" then .ok ⟨.ok "Global: [{{.Content}}]"⟩
      else if p == "index.html" then .ok ⟨.ok "Template: {{.alpha}} - {{.bravo}}"⟩
      else if p == "notes.txt" then .ok ⟨.ok "Notes: {{.Content}}"⟩
      else .error "file does not exist" }

/-- A source with the templates of the test of `SetFrameArg`. -/
def namedFiles : FS :=
  { walk := [".", "frame.html", "global.html", "index.html"]
    Open := fun p =>
      if p == "." then .ok ⟨.error "is a directory"⟩
      else if p == "frame.html" then .ok ⟨.ok "{{.frameName}}: [{{.Content}}]"⟩
      else if p == "global.html" then .ok ⟨.ok "{{.frameName}}: [{{.Content}}]"⟩
      else if p == "index.html" then .ok ⟨.ok "Template: {{.alpha}} - {{.bravo}}"⟩
      else .error "file does not exist" }

/-- A world: handle 0 is `files`, every other handle is `namedFiles`. -/
def world : World := fun h => if h = 0 then files else namedFiles

/-- The store of the second test of `UseFrame`, over `files`. -/
def store : Config engine := New engine world 0 0 [WithFrame engine "global.html"]

/-- The store of the test of `SetFrameArg`, over `namedFiles`. -/
def namedStore : Config engine := New engine world 0 1 [WithFrame engine "global.html"]

end sample

/-! ## The build -/

theorem walkFn_no_error (E : Engine) (w : World) (tc : Config E)
    (st : BuildState E.Tree) (path : String) : (tc.walkFn E w st path).2 = none := by
  unfold Config.walkFn
  split
  · rfl
  · split
    · rfl
    · split <;> rfl

theorem walkFn_mainTmpl (E : Engine) (w : World) (tc : Config E)
    (st : BuildState E.Tree) (path : String) (hesc : st.mainTmpl.escaped = false) :
    (tc.walkFn E w st path).1.mainTmpl =
      { st.mainTmpl with set := (tc.entryOf E w path).toList ++ st.mainTmpl.set } := by
  unfold Config.walkFn Config.entryOf
  by_cases hs : slices.Contains templateSuffix (filepath.Ext path) = true
  · simp only [hs, Bool.not_true, Bool.false_eq_true, if_false, if_true]
    cases hp : tc.parseTemplate E w path with
    | error err => simp
    | ok tmpl => simp [Template.AddParseTree, hesc]
  · simp [hs]

theorem WalkDir_eq_foldl {σ : Type} (fn : σ → String → σ × Option String)
    (hfn : ∀ st p, (fn st p).2 = none) (st : σ) (paths : List String) :
    fs.WalkDir fn st paths = (paths.foldl (fun s p => (fn s p).1) st, none) := by
  induction paths generalizing st with
  | nil => rfl
  | cons p ps ih =>
    have h := hfn st p
    rw [fs.WalkDir]
    cases hq : fn st p with
    | mk st1 e =>
      rw [hq] at h
      simp only at h
      subst h
      simp only [List.foldl_cons, hq]
      exact ih st1

theorem foldl_walkFn_mainTmpl (E : Engine) (w : World) (tc : Config E) (paths : List String)
    (st : BuildState E.Tree) (hesc : st.mainTmpl.escaped = false) :
    (paths.foldl (fun s p => (tc.walkFn E w s p).1) st).mainTmpl =
      { st.mainTmpl with
        set := paths.reverse.filterMap (tc.entryOf E w) ++ st.mainTmpl.set } := by
  induction paths generalizing st with
  | nil => simp
  | cons p ps ih =>
    have h1 := walkFn_mainTmpl E w tc st p hesc
    have hesc1 : (tc.walkFn E w st p).1.mainTmpl.escaped = false := by rw [h1]; exact hesc
    rw [List.foldl_cons, ih _ hesc1, h1]
    cases he : tc.entryOf E w p <;> simp [List.filterMap_append, he]

theorem buildTemplates_eq (E : Engine) (w : World) (tc : Config E) :
    tc.buildTemplates E w =
      { tc.rootTmpl E with
        set := (w tc.templateFS).walk.reverse.filterMap (tc.entryOf E w)
                ++ [("/", ⟨"/", none⟩)] } := by
  unfold Config.buildTemplates Config.buildTemplatesLogged
  have hroot : (match tc.funcMaps with
      | some m => (template.New "/" : Template E.Tree).Funcs m
      | none => template.New "/") = tc.rootTmpl E := rfl
  simp only [hroot]
  rw [WalkDir_eq_foldl _ (walkFn_no_error E w tc)]
  have hesc : (tc.rootTmpl E).escaped = false := by
    unfold Config.rootTmpl; cases tc.funcMaps <;> rfl
  have hset : (tc.rootTmpl E).set = [("/", ⟨"/", none⟩)] := by
    unfold Config.rootTmpl; cases tc.funcMaps <;> rfl
  rw [foldl_walkFn_mainTmpl E w tc _ ⟨tc.rootTmpl E, []⟩ hesc]
  simp [hset]

theorem recognised_iff (path : String) :
    slices.Contains templateSuffix (filepath.Ext path) = true ↔
      filepath.Ext path = ".html" ∨ filepath.Ext path = ".gohtml" := by
  simp only [slices.Contains, templateSuffix, List.any_cons, List.any_nil, Bool.or_false,
    Bool.or_eq_true, beq_iff_eq]
  constructor
  · rintro (h | h)
    · exact Or.inl h.symm
    · exact Or.inr h.symm
  · rintro (h | h)
    · exact Or.inl h.symm
    · exact Or.inr h.symm

theorem recognised_examples :
    recognised "index.html" = true ∧ recognised "sub/x.tar.gohtml" = true ∧
    recognised "page.HTML" = false ∧ recognised "README" = false ∧
    recognised "site.html/notes" = false ∧ recognised "page.htm" = false ∧
    recognised "." = false ∧ recognised "/" = false := by
  decide

theorem entryOf_fst (E : Engine) (w : World) (tc : Config E) (q : String)
    (x : String × Entry E.Tree) (h : tc.entryOf E w q = some x) : x.1 = q := by
  unfold Config.entryOf at h
  split at h
  · split at h
    · cases h; rfl
    · cases h
  · cases h

theorem entryOf_recognised (E : Engine) (w : World) (tc : Config E) (q : String)
    (x : String × Entry E.Tree) (h : tc.entryOf E w q = some x) :
    slices.Contains templateSuffix (filepath.Ext q) = true := by
  unfold Config.entryOf at h
  split at h
  · assumption
  · cases h

theorem find?_filterMap_key {β : Type} (f : String → Option (String × β))
    (hf : ∀ q x, f q = some x → x.1 = q) (l : List String) (p : String) :
    (l.filterMap f).find? (fun x => x.1 == p) = if p ∈ l then f p else none := by
  induction l with
  | nil => simp
  | cons q l ih =>
    cases hq : f q with
    | none =>
      rw [List.filterMap_cons_none hq, ih]
      by_cases hpq : p = q
      · subst hpq; simp [hq]
      · simp [hpq]
    | some x =>
      rw [List.filterMap_cons_some hq, List.find?_cons]
      have hx := hf q x hq
      by_cases hpq : p = q
      · subst hpq; simp [hx, hq]
      · have hne : (x.1 == p) = false := by
          rw [hx]; simpa using fun h => hpq h.symm
        simp [hne, ih, hpq]

theorem Lookup_buildTemplates (E : Engine) (w : World) (tc : Config E) (path : String) :
    (tc.buildTemplates E w).Lookup path =
      match (if path ∈ (w tc.templateFS).walk then tc.entryOf E w path else none) with
      | some x => some { tc.buildTemplates E w with name := x.2.name, Tree := x.2.Tree }
      | none =>
        if path = "/" then some { tc.buildTemplates E w with name := "/", Tree := none }
        else none := by
  have hb := buildTemplates_eq E w tc
  unfold Template.Lookup
  have hset : (tc.buildTemplates E w).set =
      (w tc.templateFS).walk.reverse.filterMap (tc.entryOf E w) ++ [("/", ⟨"/", none⟩)] := by
    rw [hb]
  rw [hset, List.find?_append,
    find?_filterMap_key (tc.entryOf E w) (entryOf_fst E w tc) _ path]
  simp only [List.mem_reverse]
  by_cases hmem : path ∈ (w tc.templateFS).walk
  · simp only [hmem, if_true]
    cases he : tc.entryOf E w path with
    | some x => simp [hset]
    | none =>
      by_cases hp : path = "/"
      · subst hp; simp [hset]
      · have : ("/" == path) = false := by simpa using fun h => hp h.symm
        simp [this, hp]
  · simp only [hmem, if_false]
    by_cases hp : path = "/"
    · subst hp; simp [hset]
    · have : ("/" == path) = false := by simpa using fun h => hp h.symm
      simp [this, hp]

theorem parseTemplate_congr (E : Engine) (w w2 : World) (tc : Config E) (q : String)
    (h : (w2 tc.templateFS).Open q = (w tc.templateFS).Open q) :
    tc.parseTemplate E w2 q = tc.parseTemplate E w q := by
  unfold Config.parseTemplate
  rw [h]

theorem entryOf_congr (E : Engine) (w w2 : World) (tc : Config E) (q : String)
    (h : slices.Contains templateSuffix (filepath.Ext q) = true →
      (w2 tc.templateFS).Open q = (w tc.templateFS).Open q) :
    tc.entryOf E w2 q = tc.entryOf E w q := by
  unfold Config.entryOf
  by_cases hs : slices.Contains templateSuffix (filepath.Ext q) = true
  · simp only [hs, if_true]
    rw [parseTemplate_congr E w w2 tc q (h hs)]
  · simp [hs]

theorem buildTemplates_congr (E : Engine) (w w2 : World) (tc : Config E)
    (h : (w2 tc.templateFS).walk.filterMap (tc.entryOf E w2) =
      (w tc.templateFS).walk.filterMap (tc.entryOf E w)) :
    tc.buildTemplates E w2 = tc.buildTemplates E w := by
  rw [buildTemplates_eq, buildTemplates_eq, List.filterMap_reverse, List.filterMap_reverse, h]

theorem filterMap_filter_of_none {α β : Type} (f : α → Option β) (g : α → Bool)
    (hfg : ∀ a, g a = false → f a = none) (l : List α) :
    (l.filter g).filterMap f = l.filterMap f := by
  induction l with
  | nil => rfl
  | cons a l ih =>
    cases hg : g a with
    | true => simp only [List.filter_cons, hg, if_true, List.filterMap_cons, ih]
    | false =>
      have hfa := hfg a hg
      simp [List.filter_cons, hg, List.filterMap_cons, hfa, ih]

theorem entryOf_remove (E : Engine) (w : World) (tc : Config E) (path q : String)
    (hq : q ≠ path) :
    tc.entryOf E (w.replace tc.templateFS ((w tc.templateFS).remove path)) q =
      tc.entryOf E w q := by
  apply entryOf_congr
  intro _
  simp [World.replace, FS.remove, hq]

theorem buildTemplates_remove (E : Engine) (w : World) (tc : Config E) (path : String)
    (hnone : tc.entryOf E w path = none) :
    tc.buildTemplates E (w.replace tc.templateFS ((w tc.templateFS).remove path)) =
      tc.buildTemplates E w := by
  apply buildTemplates_congr
  have hwalk : ((w.replace tc.templateFS ((w tc.templateFS).remove path)) tc.templateFS).walk =
      (w tc.templateFS).walk.filter (fun p => p != path) := by
    simp [World.replace, FS.remove]
  rw [hwalk]
  have h1 : ((w tc.templateFS).walk.filter (fun p => p != path)).filterMap
      (tc.entryOf E (w.replace tc.templateFS ((w tc.templateFS).remove path))) =
      ((w tc.templateFS).walk.filter (fun p => p != path)).filterMap (tc.entryOf E w) := by
    apply List.filterMap_congr
    intro q hqmem
    have hq : q ≠ path := by
      have := (List.mem_filter.mp hqmem).2
      simpa using this
    exact entryOf_remove E w tc path q hq
  rw [h1]
  apply filterMap_filter_of_none
  intro a ha
  have : a = path := by simpa using ha
  rw [this]; exact hnone

theorem entryOf_of_parse_error (E : Engine) (w : World) (tc : Config E) (path err : String)
    (h : tc.parseTemplate E w path = .error err) : tc.entryOf E w path = none := by
  unfold Config.entryOf
  rw [h]
  split <;> rfl

/-- C4: `buildTemplates` is never cut short by a template that fails to read or
parse: the walk callback returns no error, so the walk visits every path; a file
with a recognised suffix that opens, reads and parses is bound under its walk
path, with the parse tree of its contents; a path whose `parseTemplate` fails is
not bound; and removing such a file from the source leaves the built set as it
was. -/
theorem buildTemplates_skips_unparsable (E : Engine) (w : World) (tc : Config E) :
    (∀ (st : BuildState E.Tree) (paths : List String),
        fs.WalkDir (tc.walkFn E w) st paths =
          (paths.foldl (fun s p => (tc.walkFn E w s p).1) st, none)) ∧
    (∀ (path : String) (f : File) (text : String) (tree : E.Tree),
        path ∈ (w tc.templateFS).walk →
        slices.Contains templateSuffix (filepath.Ext path) = true →
        (w tc.templateFS).Open path = .ok f →
        f.ReadAll = .ok text →
        E.Parse (tc.funcMaps.getD []) path text = .ok tree →
        ∃ t, (tc.buildTemplates E w).Lookup path = some t ∧ t.name = path ∧
          t.Tree = some tree) ∧
    (∀ (path err : String),
        tc.parseTemplate E w path = .error err → path ≠ "/" →
        (tc.buildTemplates E w).Lookup path = none) ∧
    (∀ (path err : String),
        tc.parseTemplate E w path = .error err →
        tc.buildTemplates E (w.replace tc.templateFS ((w tc.templateFS).remove path)) =
          tc.buildTemplates E w) := by
  refine ⟨?_, ?_, ?_, ?_⟩
  · intro st paths
    exact WalkDir_eq_foldl _ (walkFn_no_error E w tc) st paths
  · intro path f text tree hmem hrec hopen hread hparse
    have he : tc.entryOf E w path = some (path, ⟨path, some tree⟩) := by
      unfold Config.entryOf Config.parseTemplate
      rw [if_pos hrec, hopen]
      simp only [hread]
      cases hf : tc.funcMaps with
      | none =>
        rw [hf] at hparse
        simp only [Option.getD_none] at hparse
        simp [Template.Parse, template.New, hparse]
      | some m =>
        rw [hf] at hparse
        simp only [Option.getD_some] at hparse
        simp [Template.Parse, template.New, Template.Funcs, hparse]
    rw [Lookup_buildTemplates]
    simp only [hmem, if_true, he]
    exact ⟨_, rfl, rfl, rfl⟩
  · intro path err herr hroot
    rw [Lookup_buildTemplates, entryOf_of_parse_error E w tc path err herr]
    simp [hroot]
  · intro path err herr
    exact buildTemplates_remove E w tc path (entryOf_of_parse_error E w tc path err herr)

theorem buildTemplates_skips_unparsable_witness :
    (∃ t, (sample.store.buildTemplates sample.engine sample.world).Lookup "index.html" = some t ∧
        t.name = "index.html" ∧
        t.Tree = some [sample.Node.text "Template: ", sample.Node.field "alpha",
          sample.Node.text " - ", sample.Node.field "bravo"]) ∧
    (sample.store.buildTemplates sample.engine sample.world).Lookup "bad.html" = none ∧
    sample.store.buildTemplates sample.engine
        (sample.world.replace 0 (sample.files.remove "bad.html")) =
      sample.store.buildTemplates sample.engine sample.world :=
  ⟨(buildTemplates_skips_unparsable sample.engine sample.world sample.store).2.1
      "index.html" ⟨.ok "Template: {{.alpha}} - {{.bravo}}"⟩ "Template: {{.alpha}} - {{.bravo}}"
      [sample.Node.text "Template: ", sample.Node.field "alpha",
        sample.Node.text " - ", sample.Node.field "bravo"]
      (by decide) (by decide) rfl rfl rfl,
   (buildTemplates_skips_unparsable sample.engine sample.world sample.store).2.2.1
      "bad.html" "unclosed action" rfl (by decide),
   (buildTemplates_skips_unparsable sample.engine sample.world sample.store).2.2.2
      "bad.html" "unclosed action" rfl⟩

/-- C5: a path other than the name of the root template is bound in the set
built by `buildTemplates` only if it is a path of the walk whose final extension
is exactly `.html` or `.gohtml`; and two states of the source that have the same
walk once the paths without such an extension are left out, and that open the
paths with such an extension alike, build the same set: entries with another
extension are neither opened nor bound, and adding or removing them changes
nothing. -/
theorem buildTemplates_only_recognised (E : Engine) (w : World) (tc : Config E) :
    (∀ (path : String) (t : Template E.Tree),
        path ≠ "/" → (tc.buildTemplates E w).Lookup path = some t →
        path ∈ (w tc.templateFS).walk ∧
          (filepath.Ext path = ".html" ∨ filepath.Ext path = ".gohtml")) ∧
    (∀ (w2 : World),
        (w2 tc.templateFS).walk.filter recognised = (w tc.templateFS).walk.filter recognised →
        (∀ p, recognised p = true → (w2 tc.templateFS).Open p = (w tc.templateFS).Open p) →
        tc.buildTemplates E w2 = tc.buildTemplates E w) := by
  refine ⟨?_, ?_⟩
  · intro path t hroot hlook
    rw [Lookup_buildTemplates] at hlook
    by_cases hmem : path ∈ (w tc.templateFS).walk
    · simp only [hmem, if_true] at hlook
      cases he : tc.entryOf E w path with
      | none => rw [he] at hlook; simp [hroot] at hlook
      | some x =>
        exact ⟨hmem, (recognised_iff path).mp (entryOf_recognised E w tc path x he)⟩
    · simp [hmem, hroot] at hlook
  · intro w2 hwalk hopen
    apply buildTemplates_congr
    have hnone : ∀ (v : World) (a : String), recognised a = false → tc.entryOf E v a = none := by
      intro v a ha
      unfold Config.entryOf
      unfold recognised at ha
      simp [ha]
    rw [← filterMap_filter_of_none (tc.entryOf E w2) recognised (hnone w2),
      ← filterMap_filter_of_none (tc.entryOf E w) recognised (hnone w), hwalk]
    apply List.filterMap_congr
    intro q hq
    have hrec : recognised q = true := (List.mem_filter.mp hq).2
    exact entryOf_congr E w w2 tc q (fun _ => hopen q hrec)

theorem buildTemplates_only_recognised_witness :
    ("index.html" ∈ (sample.world sample.store.templateFS).walk ∧
      (filepath.Ext "index.html" = ".html" ∨ filepath.Ext "index.html" = ".gohtml")) ∧
    sample.store.buildTemplates sample.engine
        (sample.world.replace 0 (sample.files.remove "notes.txt")) =
      sample.store.buildTemplates sample.engine sample.world :=
  ⟨(buildTemplates_only_recognised sample.engine sample.world sample.store).1 "index.html"
      { name := "index.html"
        Tree := some [sample.Node.text "Template: ", sample.Node.field "alpha",
          sample.Node.text " - ", sample.Node.field "bravo"]
        funcs := (sample.store.buildTemplates sample.engine sample.world).funcs
        set := (sample.store.buildTemplates sample.engine sample.world).set
        escaped := false }
      (by decide) rfl,
   (buildTemplates_only_recognised sample.engine sample.world sample.store).2
      (sample.world.replace 0 (sample.files.remove "notes.txt")) rfl
      (by
        intro p hp
        have hne : p ≠ "notes.txt" := by
          intro h
          rw [h] at hp
          exact absurd hp (by decide)
        have h0 : sample.store.templateFS = 0 := rfl
        rw [h0]
        simp [World.replace, FS.remove, sample.world, hne])⟩

/-! ## Rendering -/

theorem calls_fields {E : Engine} (cs : List InvCall) (inv : Inv E) :
    (inv.calls cs).config = inv.config ∧
    (inv.calls cs).values = InvCall.valueMap cs ++ inv.values ∧
    (inv.calls cs).frames =
      inv.frames ++ (InvCall.frameNames cs).map (fun name => { name := name, args := [] }) ∧
    (inv.calls cs).frameArgs = InvCall.frameArgMap cs ++ inv.frameArgs := by
  induction cs generalizing inv with
  | nil => simp [Inv.calls, InvCall.valueMap, InvCall.frameNames, InvCall.frameArgMap]
  | cons c cs ih =>
    cases c with
    | Set key value =>
      obtain ⟨h1, h2, h3, h4⟩ := ih (inv.Set key value)
      refine ⟨h1, ?_, h3, h4⟩
      show ((inv.Set key value).calls cs).values = _
      rw [h2]
      simp [Inv.Set, InvCall.valueMap]
    | UseFrame name =>
      obtain ⟨h1, h2, h3, h4⟩ := ih (inv.UseFrame name)
      refine ⟨h1, h2, ?_, h4⟩
      show ((inv.UseFrame name).calls cs).frames = _
      rw [h3]
      simp [Inv.UseFrame, InvCall.frameNames]
    | SetFrameArg key value =>
      obtain ⟨h1, h2, h3, h4⟩ := ih (inv.SetFrameArg key value)
      refine ⟨h1, h2, h3, ?_⟩
      show ((inv.SetFrameArg key value).calls cs).frameArgs = _
      rw [h4]
      simp [Inv.SetFrameArg, InvCall.frameArgMap]

theorem foldl_frameStep_error (expand : String → Ctx → Except RenderError String)
    (shared : Ctx) (err : RenderError) (frames : List String) :
    frames.foldl (frameStep expand shared) (.error err) = .error err := by
  induction frames with
  | nil => rfl
  | cons f fs ih => simpa [List.foldl_cons, frameStep] using ih

theorem composeFrames_eq_foldl {E : Engine} (inv : Inv E) (names : List String)
    (output : String) :
    inv.composeFrames output (names.map (fun name => { name := name, args := [] })) =
      names.foldl (frameStep inv.config.expand inv.frameArgs) (.ok output) := by
  induction names generalizing output with
  | nil => rfl
  | cons f fs ih =>
    have hctx : inv.frameCtx { name := f, args := [] } output =
        ("Content", Value.str output) :: inv.frameArgs := by
      simp [Inv.frameCtx, merge]
    rw [List.map_cons, Inv.composeFrames, hctx, List.foldl_cons]
    cases hx : inv.config.expand f (("Content", Value.str output) :: inv.frameArgs) with
    | error err =>
      simp only [frameStep, hx]
      exact (foldl_frameStep_error _ _ err fs).symm
    | ok out =>
      simp only [frameStep, hx]
      exact ih out

theorem New_frameTemplates (E : Engine) (w : World) (mu : MutexRef) (tmplFS : FSHandle)
    (gs : List String) :
    (New E w mu tmplFS (gs.map (WithFrame E))).frameTemplates = gs := by
  have h : ∀ (names : List String) (cfg : Config E),
      ((names.map (WithFrame E)).foldl (fun cfg opt => opt cfg) cfg).frameTemplates =
        cfg.frameTemplates ++ names := by
    intro names
    induction names with
    | nil => intro cfg; simp
    | cons n ns ih =>
      intro cfg
      rw [List.map_cons, List.foldl_cons, ih]
      simp [WithFrame]
  unfold New
  simpa using h gs _

/-- C1: for a store constructed with the global frames `gs` and an invocation of
it on which a handler has made the calls `cs`, `Render` returns the fold of frame
expansion over the frames passed to `UseFrame`, in call order, followed by `gs`,
starting from the expansion of the content template against the value mapping,
each frame expanded with `Content` bound to the previous output; with no frame
of either kind the output is the bare expansion of the content template. -/
theorem Render_composes_frames (E : Engine) (w : World) (mu : MutexRef) (tmplFS : FSHandle)
    (gs : List String) (cs : List InvCall) (templateName : String) :
    ((New E w mu tmplFS (gs.map (WithFrame E))).NewInv.calls cs).Render templateName =
      (InvCall.frameNames cs ++ gs).foldl
        (frameStep (New E w mu tmplFS (gs.map (WithFrame E))).expand (InvCall.frameArgMap cs))
        ((New E w mu tmplFS (gs.map (WithFrame E))).expand templateName (InvCall.valueMap cs)) ∧
    (InvCall.frameNames cs = [] →
      ((New E w mu tmplFS []).NewInv.calls cs).Render templateName =
        (New E w mu tmplFS []).expand templateName (InvCall.valueMap cs)) := by
  have key : ∀ (names : List String),
      ((New E w mu tmplFS (names.map (WithFrame E))).NewInv.calls cs).Render templateName =
      (InvCall.frameNames cs ++ names).foldl
        (frameStep (New E w mu tmplFS (names.map (WithFrame E))).expand (InvCall.frameArgMap cs))
        ((New E w mu tmplFS (names.map (WithFrame E))).expand templateName
          (InvCall.valueMap cs)) := by
    intro names
    obtain ⟨h1, h2, h3, h4⟩ :=
      calls_fields cs (New E w mu tmplFS (names.map (WithFrame E))).NewInv
    have hg := New_frameTemplates E w mu tmplFS names
    generalize New E w mu tmplFS (names.map (WithFrame E)) = store at h1 h2 h3 h4 hg ⊢
    generalize store.NewInv.calls cs = inv at h1 h2 h3 h4 ⊢
    have hc : inv.config = store := h1
    have hv : inv.values = InvCall.valueMap cs := by rw [h2]; simp [Config.NewInv]
    have hf : inv.frames =
        (InvCall.frameNames cs).map (fun name => { name := name, args := [] }) := by
      rw [h3]; simp [Config.NewInv]
    have ha : inv.frameArgs = InvCall.frameArgMap cs := by rw [h4]; simp [Config.NewInv]
    unfold Inv.Render
    rw [hv, hf, hc, hg, ← List.map_append]
    cases hx : store.expand templateName (InvCall.valueMap cs) with
    | error err => exact (foldl_frameStep_error _ _ err _).symm
    | ok out =>
      have := composeFrames_eq_foldl inv (InvCall.frameNames cs ++ names) out
      rw [hc, ha] at this
      exact this
  refine ⟨key gs, ?_⟩
  intro hnone
  have h := key []
  rw [hnone] at h
  simpa using h

theorem Render_composes_frames_witness :
    (sample.store.NewInv.calls
        [InvCall.UseFrame "frame.html", InvCall.Set "alpha" (Value.str "Hello"),
          InvCall.Set "bravo" (Value.str "World")]).Render "index.html" =
      .ok "Global: [Frame: [Template: Hello - World]]" ∧
    ((New sample.engine sample.world 0 0 []).NewInv.calls
        [InvCall.Set "alpha" (Value.str "Hello"),
          InvCall.Set "bravo" (Value.str "World")]).Render "index.html" =
      .ok "Template: Hello - World" :=
  ⟨(Render_composes_frames sample.engine sample.world 0 0 ["global.html"]
      [InvCall.UseFrame "frame.html", InvCall.Set "alpha" (Value.str "Hello"),
        InvCall.Set "bravo" (Value.str "World")] "index.html").1.trans rfl,
   ((Render_composes_frames sample.engine sample.world 0 0 []
      [InvCall.Set "alpha" (Value.str "Hello"),
        InvCall.Set "bravo" (Value.str "World")] "index.html").2 rfl).trans rfl⟩

/-- The frame context that `frameCtx` builds after `SetFrameArg(k, v)` binds `k`
to `v` for a key other than `Content`, whatever the frame and the previous
output.  For the key `Content` the specification gives no rule of precedence
between the shared frame arguments and the `Content` slot, and nothing is stated
here. -/
theorem frameCtx_SetFrameArg_other_key {E : Engine} (inv : Inv E) (k : String) (v : Value)
    (hk : k ≠ "Content") (frame : Frame) (output : String) :
    ((inv.SetFrameArg k v).frameCtx frame output).lookup k = some v := by
  have hne : (k == "Content") = false := by simpa using hk
  simp [Inv.frameCtx, merge, Inv.SetFrameArg, List.lookup, hne]

/-- The call `SetFrameArg` leaves the value mapping of the invocation as it was. -/
theorem SetFrameArg_values {E : Engine} (inv : Inv E) (k : String) (v : Value) :
    (inv.SetFrameArg k v).values = inv.values := rfl

/-- The test of `SetFrameArg` in `context_test.go`, run on the definitions. -/
theorem Render_SetFrameArg_test :
    (sample.namedStore.NewInv.calls
        [InvCall.UseFrame "frame.html", InvCall.Set "alpha" (Value.str "Hello"),
          InvCall.Set "bravo" (Value.str "World"),
          InvCall.SetFrameArg "frameName" (Value.str "The Frame")]).Render "index.html" =
      .ok "The Frame: [The Frame: [Template: Hello - World]]" := rfl

/-- C6: whenever `Render` succeeds, `HTML` sends the response sink exactly the
given status code, the header `Content-Type` with the value
`text/html; charset=utf-8`, and as the body exactly the string `Render`
returned. -/
theorem HTML_writes_render {E : Engine} (inv : Inv E) (r : Request E) (w : ResponseWriter)
    (status : Nat) (templateName output : String)
    (h : inv.Render templateName = .ok output) :
    inv.HTML r w status templateName =
      w ++ [SinkEvent.status status,
        SinkEvent.header "Content-Type" "text/html; charset=utf-8",
        SinkEvent.body output] := by
  unfold Inv.HTML
  rw [h]

theorem HTML_writes_render_witness :
    (sample.store.NewInv.calls
        [InvCall.UseFrame "frame.html", InvCall.Set "alpha" (Value.str "Hello"),
          InvCall.Set "bravo" (Value.str "World")]).HTML
        { method := "GET", url := "https://www.example.com/", ctx := [] } [] 200 "index.html" =
      [SinkEvent.status 200,
        SinkEvent.header "Content-Type" "text/html; charset=utf-8",
        SinkEvent.body "Global: [Frame: [Template: Hello - World]]"] :=
  HTML_writes_render _ _ [] 200 "index.html" "Global: [Frame: [Template: Hello - World]]" rfl

/-! ## The store -/

theorem template_of_absent {E : Engine} (tc : Config E) (set : Template E.Tree)
    (name : String) (hset : tc.templateSet = some set) (habsent : set.Lookup name = none) :
    tc.template name = LookupResult.returned none none := by
  unfold Config.template
  rw [hset]
  simp only [habsent]

/-- C3, on the code: for a name that the served set does not bind, here
`missing.html` in the store of the tests, `template` returns a nil template
together with a nil error. -/
theorem template_missing_returns_nil_nil :
    (sample.store.templateSet.bind (fun set => set.Lookup "missing.html")).isNone = true ∧
    sample.store.template "missing.html" = LookupResult.returned none none :=
  ⟨rfl, rfl⟩

/-- C7: after `rebuildTemplates` the served set is the set `buildTemplates`
produces from the source as it is in the world of the rebuild, whatever the set
served before; a fresh build by the rebuilt store gives that same set; and a
lookup returns for every name what that set binds to it, so it finds a name if
and only if the fresh build binds it. -/
theorem rebuildTemplates_serves_fresh_build (E : Engine) (w : World) (tc : Config E) :
    (tc.rebuildTemplates E w).templateSet = some (tc.buildTemplates E w) ∧
    (tc.rebuildTemplates E w).buildTemplates E w = tc.buildTemplates E w ∧
    (∀ (name : String),
        (tc.rebuildTemplates E w).template name =
          LookupResult.returned ((tc.buildTemplates E w).Lookup name) none) ∧
    (∀ (name : String) (t : Template E.Tree),
        (tc.rebuildTemplates E w).template name = LookupResult.returned (some t) none ↔
          (tc.buildTemplates E w).Lookup name = some t) := by
  refine ⟨rfl, rfl, fun _ => rfl, ?_⟩
  intro name t
  show LookupResult.returned ((tc.buildTemplates E w).Lookup name) none =
      LookupResult.returned (some t) none ↔ _
  constructor
  · intro h
    injection h
  · intro h
    rw [h]

theorem rebuildTemplates_serves_fresh_build_witness :
    sample.store.template "frame.html" ≠ LookupResult.returned none none ∧
    (sample.store.rebuildTemplates sample.engine
        (sample.world.replace 0 (sample.files.remove "frame.html"))).template "frame.html" =
      LookupResult.returned none none :=
  ⟨by
      intro h
      have h2 : (sample.store.templateSet.bind
          (fun set => set.Lookup "frame.html")).isNone = false := rfl
      have h3 : sample.store.template "frame.html" =
          LookupResult.returned (sample.store.templateSet.bind
            (fun set => set.Lookup "frame.html")) none := rfl
      rw [h3] at h
      injection h with h4 _
      rw [h4] at h2
      exact absurd h2 (by decide),
   ((rebuildTemplates_serves_fresh_build sample.engine
      (sample.world.replace 0 (sample.files.remove "frame.html")) sample.store).2.2.1
      "frame.html").trans rfl⟩

/-- C8: `NewInv` returns an invocation whose value mapping, frame list and shared
frame arguments are empty and whose store is the store it was called on, as it
was before the call; and the handler `Use` returns hands the next handler the
request with such an invocation attached to its context under the key of the
package, the response writer and the rest of the request being passed on as
they are. -/
theorem NewInv_fresh {E : Engine} (tc : Config E) :
    tc.NewInv.values = [] ∧ tc.NewInv.frames = [] ∧ tc.NewInv.frameArgs = [] ∧
    tc.NewInv.config = tc ∧
    (∀ (next : Handler E) (w : ResponseWriter) (r : Request E),
      ∃ r2 : Request E,
        tc.Use next w r = next w r2 ∧
        r2.ctx.Value ContextKey.renderContextKey = some (ContextValue.inv tc.NewInv) ∧
        r2.method = r.method ∧ r2.url = r.url ∧
        (∀ key, key ≠ ContextKey.renderContextKey → r2.ctx.Value key = r.ctx.Value key)) := by
  refine ⟨rfl, rfl, rfl, rfl, ?_⟩
  intro next w r
  refine ⟨_, rfl, ?_, rfl, rfl, ?_⟩
  · simp [Request.WithContext, context.WithValue, Context.Value]
  · intro key hkey
    have hne : (ContextKey.renderContextKey == key) = false := by
      simpa using fun h => hkey h.symm
    simp [Request.WithContext, context.WithValue, Context.Value, List.find?_cons, hne]

/-- C9: `New` applies the options in the order given to the store under
construction and builds the first set from the store they leave, so the global
frames registered with `WithFrame` are the names in the order given; and
`rebuildTemplates`, in whatever worlds and however often it runs, leaves the
global frame list, the template source, the function map and the mutex as they
were and changes only the served set; `NewInv` refers to the store unchanged. -/
theorem store_configuration_fixed (E : Engine) (w : World) (mu : MutexRef)
    (tmplFS : FSHandle) :
    (∀ (opts : List (ConfigOption E)),
      New E w mu tmplFS opts =
        { (opts.foldl (fun cfg opt => opt cfg)
            ({ templateFS := tmplFS, cacheMutex := mu, templateSet := none,
               funcMaps := none, frameTemplates := [] } : Config E)) with
          templateSet := some ((opts.foldl (fun cfg opt => opt cfg)
            ({ templateFS := tmplFS, cacheMutex := mu, templateSet := none,
               funcMaps := none, frameTemplates := [] } : Config E)).buildTemplates E w) }) ∧
    (∀ (gs : List String), (New E w mu tmplFS (gs.map (WithFrame E))).frameTemplates = gs) ∧
    (∀ (tc : Config E) (worlds : List World),
      (worlds.foldl (fun tc w2 => tc.rebuildTemplates E w2) tc).frameTemplates =
          tc.frameTemplates ∧
      (worlds.foldl (fun tc w2 => tc.rebuildTemplates E w2) tc).templateFS = tc.templateFS ∧
      (worlds.foldl (fun tc w2 => tc.rebuildTemplates E w2) tc).funcMaps = tc.funcMaps ∧
      (worlds.foldl (fun tc w2 => tc.rebuildTemplates E w2) tc).cacheMutex = tc.cacheMutex) ∧
    (∀ (tc : Config E) (w2 : World),
      tc.rebuildTemplates E w2 = { tc with templateSet := some (tc.buildTemplates E w2) }) ∧
    (∀ (tc : Config E), tc.NewInv.config = tc) := by
  refine ⟨fun _ => rfl, New_frameTemplates E w mu tmplFS, ?_, fun _ _ => rfl, fun _ => rfl⟩
  intro tc worlds
  induction worlds generalizing tc with
  | nil => exact ⟨rfl, rfl, rfl, rfl⟩
  | cons w2 ws ih =>
    rw [List.foldl_cons]
    exact ih (tc.rebuildTemplates E w2)

/-! ## Synchronisation -/

theorem rebuildTemplatesSync_writes_locked (s : Sync)
    (hfree : s.mutex = { writer := false, readers := 0 }) :
    Config.rebuildTemplatesSync s =
      .done { mutex := { writer := false, readers := 0 }
              accesses := s.accesses ++ [(Access.write, { writer := true, readers := 0 })] } := by
  cases s with
  | mk mutex accesses =>
    simp only at hfree
    subst hfree
    simp [Config.rebuildTemplatesSync, Sync.Lock, Sync.Unlock, Sync.access]

theorem rebuildTemplatesSync_waits (s : Sync)
    (hheld : s.mutex.writer = true ∨ s.mutex.readers ≠ 0) :
    Config.rebuildTemplatesSync s = .blocked := by
  have hn : ¬ (s.mutex.writer = false ∧ s.mutex.readers = 0) := by
    rintro ⟨h1, h2⟩
    rcases hheld with h | h
    · rw [h1] at h; exact absurd h (by decide)
    · exact h h2
  simp [Config.rebuildTemplatesSync, Sync.Lock, hn]

theorem rebuildTemplatesSync_examples :
    Config.rebuildTemplatesSync { mutex := { writer := false, readers := 0 }, accesses := [] } =
      .done { mutex := { writer := false, readers := 0 }
              accesses := [(Access.write, { writer := true, readers := 0 })] } ∧
    Config.rebuildTemplatesSync { mutex := { writer := false, readers := 1 }, accesses := [] } =
      .blocked := by
  decide

/-- C10, on the code: `template` reads the served set while the mutex is in the
state it was in before the call, without taking the shared lock: from a free
mutex, the read is made with no shared lock held. -/
theorem template_reads_without_lock :
    (∀ (s : Sync), Config.templateSync s =
      { mutex := s.mutex, accesses := s.accesses ++ [(Access.read, s.mutex)] }) ∧
    (Config.templateSync { mutex := { writer := false, readers := 0 }, accesses := [] }).accesses =
      [(Access.read, { writer := false, readers := 0 })] :=
  ⟨fun _ => rfl, rfl⟩

end render
